import Mathlib

/-!
Verification of the ItanniX voice client (`voice_client.py`).

The development shallowly embeds the parts of the client that the
specification's testable properties speak about:

* a JSON value model together with `Json.dumps` / `loads`, mirroring the
  fragment of Python's `json.dumps` / `json.loads` that the client
  exercises (objects, arrays, strings with the named escapes, integers,
  booleans, `null`; default separators `", "` and `": "`);
* the data-channel event router `_handle_message`, the local function
  table `_handle_local_function` and `send_function_result`, modelled as
  pure functions from the decoded message and the relevant client state
  to the list of externally visible actions (callback invocations,
  console prints, data-channel sends), with Python runtime errors made
  explicit in an `Except` result;
* the session-creation step of `connect()` and the construction of the
  peer-connection configuration from the session response;
* the ICE-gathering wait loop of `connect()`;
* the per-frame processing of `_play_audio_track` (channel collapsing and
  dtype conversion, with numpy's wrapping cast to `int16` modelled as
  reduction modulo `2^16` and float truncation toward zero on exact
  rationals).
-/

set_option maxHeartbeats 1000000

namespace VoiceClient

/-- JSON values, as produced by `json.loads` and consumed by `json.dumps`
in the client.  Numbers are restricted to integers: every number the
client itself produces or consumes in the verified properties is an
integer (volume levels, the fixed result fields). -/
inductive Json where
  | null : Json
  | bool (b : Bool) : Json
  | num (n : ℤ) : Json
  | str (s : String) : Json
  | arr (elems : List Json) : Json
  | obj (fields : List (String × Json)) : Json
deriving Repr

mutual

/-- Structural equality test on JSON values, modelling Python `==` on the
values `json.loads` yields (for this fragment the two agree). -/
def Json.beq : Json → Json → Bool
  | .null, .null => true
  | .bool a, .bool b => a == b
  | .num a, .num b => a == b
  | .str a, .str b => a == b
  | .arr a, .arr b => Json.beqL a b
  | .obj a, .obj b => Json.beqM a b
  | _, _ => false

/-- Elementwise equality of element lists. -/
def Json.beqL : List Json → List Json → Bool
  | [], [] => true
  | a :: as', b :: bs' => Json.beq a b && Json.beqL as' bs'
  | _, _ => false

/-- Elementwise equality of member lists. -/
def Json.beqM : List (String × Json) → List (String × Json) → Bool
  | [], [] => true
  | (ka, va) :: as', (kb, vb) :: bs' => ka == kb && Json.beq va vb && Json.beqM as' bs'
  | _, _ => false

end

instance : BEq Json := ⟨Json.beq⟩

/-- Association-list lookup, modelling `dict.get` on a dict built by
`json.loads` (keys are unique there, so first match is the match). -/
def lookupField : List (String × Json) → String → Option Json
  | [], _ => none
  | (k, v) :: rest, key => if k = key then some v else lookupField rest key

/-- Field access on a JSON object; `none` when the field is absent or the
value is not an object.  (The router's faithful accessor, which raises on
non-dicts like Python's `.get`, is defined with the router below.) -/
def Json.getField : Json → String → Option Json
  | .obj kvs, key => lookupField kvs key
  | _, _ => none

/-! ### Encoding: the fragment of Python `json.dumps` used by the client -/

/-- Lower-case hexadecimal digit, as CPython emits in `\uXXXX` escapes. -/
def hexDigit (n : ℕ) : Char :=
  if n < 10 then Char.ofNat (48 + n) else Char.ofNat (87 + n)

/-- Four hex digits of a code unit. -/
def hex4 (n : ℕ) : List Char :=
  [hexDigit (n / 4096 % 16), hexDigit (n / 256 % 16), hexDigit (n / 16 % 16), hexDigit (n % 16)]

/-- The `\uXXXX` escape (with a surrogate pair beyond the BMP), as
`json.dumps` emits with its default `ensure_ascii=True`. -/
def uEscape (c : Char) : List Char :=
  let n := c.toNat
  if n < 65536 then '\\' :: 'u' :: hex4 n
  else
    let m := n - 65536
    ('\\' :: 'u' :: hex4 (55296 + m / 1024)) ++ ('\\' :: 'u' :: hex4 (56320 + m % 1024))

/-- How `json.dumps` renders one character inside a string literal: the
two-character escapes for `\` , `"` and the named control characters,
`\uXXXX` for the remaining controls and for everything outside printable
ASCII, the character itself otherwise. -/
def escapeChar (c : Char) : List Char :=
  if c = '\\' then ['\\', '\\']
  else if c = '"' then ['\\', '"']
  else if c = '\n' then ['\\', 'n']
  else if c = '\t' then ['\\', 't']
  else if c = '\r' then ['\\', 'r']
  else if c.toNat = 8 then ['\\', 'b']
  else if c.toNat = 12 then ['\\', 'f']
  else if c.toNat < 32 ∨ 127 ≤ c.toNat then uEscape c
  else [c]

/-- A string body, character by character. -/
def escString (cs : List Char) : List Char :=
  (cs.map escapeChar).flatten

/-- Decimal digit character. -/
def digitChar (d : ℕ) : Char := Char.ofNat (48 + d)

/-- Decimal digits of a natural number, most significant first, as
Python's `str(int)` renders them (no leading zeros, `"0"` for zero). -/
def natToDigits (n : ℕ) : List Char :=
  if _h : n < 10 then [digitChar n]
  else natToDigits (n / 10) ++ [digitChar (n % 10)]
decreasing_by exact Nat.div_lt_self (by omega) (by omega)

/-- Python's `str` of an integer. -/
def intToChars (z : ℤ) : List Char :=
  if z < 0 then '-' :: natToDigits z.natAbs else natToDigits z.natAbs

mutual

/-- The characters `json.dumps` emits for a value, with the default
separators `", "` and `": "` that the client uses. -/
def dumpChars : Json → List Char
  | .null => 'n' :: 'u' :: ['l', 'l']
  | .bool true => 't' :: 'r' :: ['u', 'e']
  | .bool false => 'f' :: 'a' :: ['l', 's', 'e']
  | .num n => intToChars n
  | .str s => '"' :: (escString s.data ++ ['"'])
  | .arr xs => '[' :: (dumpElems xs ++ [']'])
  | .obj kvs => '\x7b' :: (dumpMembers kvs ++ ['\x7d'])

/-- Array elements joined by `", "`. -/
def dumpElems : List Json → List Char
  | [] => []
  | [v] => dumpChars v
  | v :: rest => dumpChars v ++ ',' :: ' ' :: dumpElems rest

/-- Object members joined by `", "`. -/
def dumpMembers : List (String × Json) → List Char
  | [] => []
  | [(k, v)] => dumpKV k v
  | (k, v) :: rest => dumpKV k v ++ ',' :: ' ' :: dumpMembers rest

/-- One `"key": value` member. -/
def dumpKV (k : String) (v : Json) : List Char :=
  '"' :: (escString k.data ++ '"' :: ':' :: ' ' :: dumpChars v)

end

/-- Python `json.dumps` of a value, for the client's fragment. -/
def Json.dumps (v : Json) : String := ⟨dumpChars v⟩

/-! ### Decoding: the fragment of Python `json.loads` used by the client -/

/-- JSON whitespace. -/
def isWsChar (c : Char) : Bool := c = ' ' || c = '\t' || c = '\n' || c = '\r'

/-- Drop leading JSON whitespace. -/
def skipWs : List Char → List Char
  | [] => []
  | c :: cs => if isWsChar c then skipWs cs else c :: cs

/-- The named single-character escapes (`\uXXXX` is outside the fragment
the client's own messages ever contain). -/
def unescape (c : Char) : Option Char :=
  if c = '"' then some '"'
  else if c = '\\' then some '\\'
  else if c = '/' then some '/'
  else if c = 'n' then some '\n'
  else if c = 't' then some '\t'
  else if c = 'r' then some '\r'
  else if c = 'b' then some (Char.ofNat 8)
  else if c = 'f' then some (Char.ofNat 12)
  else none

/-- Parse a string body after the opening quote, up to and including the
closing quote; raw control characters are rejected as in strict
`json.loads`. -/
def parseStringBody : List Char → Option (List Char × List Char)
  | [] => none
  | c :: rest =>
    if c = '"' then some ([], rest)
    else if c = '\\' then
      match rest with
      | [] => none
      | e :: rest2 =>
        match unescape e with
        | none => none
        | some u => (parseStringBody rest2).map (fun p => (u :: p.1, p.2))
    else if c.toNat < 32 then none
    else (parseStringBody rest).map (fun p => (c :: p.1, p.2))

/-- Numeric value of a digit character. -/
def digitVal (c : Char) : ℕ := c.toNat - 48

/-- Consume a maximal run of digits into an accumulator. -/
def parseDigitsAux : ℕ → List Char → ℕ × List Char
  | acc, [] => (acc, [])
  | acc, c :: cs =>
    if c.isDigit then parseDigitsAux (acc * 10 + digitVal c) cs else (acc, c :: cs)

/-- Parse a nonempty run of digits. -/
def parseNat (cs : List Char) : Option (ℕ × List Char) :=
  match cs with
  | [] => none
  | c :: _ => if c.isDigit then some (parseDigitsAux 0 cs) else none

/-- Parse an optionally negated integer literal. -/
def parseIntChars (cs : List Char) : Option (ℤ × List Char) :=
  match cs with
  | [] => none
  | c :: rest =>
    if c = '-' then (parseNat rest).map (fun p => (-(p.1 : ℤ), p.2))
    else (parseNat cs).map (fun p => ((p.1 : ℤ), p.2))

mutual

/-- Recursive-descent value parser; `fuel` bounds the recursion depth and
is instantiated generously by `loads`. -/
def parseVal : ℕ → List Char → Option (Json × List Char)
  | 0, _ => none
  | fuel + 1, cs =>
    match cs with
    | [] => none
    | c :: rest =>
      if c = 'n' then
        if rest.take 3 = ['u', 'l', 'l'] then some (.null, rest.drop 3) else none
      else if c = 't' then
        if rest.take 3 = ['r', 'u', 'e'] then some (.bool true, rest.drop 3) else none
      else if c = 'f' then
        if rest.take 4 = ['a', 'l', 's', 'e'] then some (.bool false, rest.drop 4) else none
      else if c = '"' then
        (parseStringBody rest).map (fun p => (.str ⟨p.1⟩, p.2))
      else if c = '[' then
        match skipWs rest with
        | [] => none
        | c2 :: r2 =>
          if c2 = ']' then some (.arr [], r2)
          else (parseElems fuel (c2 :: r2)).map (fun p => (.arr p.1, p.2))
      else if c = '\x7b' then
        match skipWs rest with
        | [] => none
        | c2 :: r2 =>
          if c2 = '\x7d' then some (.obj [], r2)
          else (parseMembers fuel (c2 :: r2)).map (fun p => (.obj p.1, p.2))
      else (parseIntChars (c :: rest)).map (fun p => (.num p.1, p.2))

/-- Elements of a nonempty array, consuming the closing bracket. -/
def parseElems : ℕ → List Char → Option (List Json × List Char)
  | 0, _ => none
  | fuel + 1, cs =>
    match parseVal fuel cs with
    | none => none
    | some (v, r) =>
      match skipWs r with
      | [] => none
      | c :: r2 =>
        if c = ',' then
          match parseElems fuel (skipWs r2) with
          | none => none
          | some (vs, r3) => some (v :: vs, r3)
        else if c = ']' then some ([v], r2)
        else none

/-- Members of a nonempty object, consuming the closing brace. -/
def parseMembers : ℕ → List Char → Option (List (String × Json) × List Char)
  | 0, _ => none
  | fuel + 1, cs =>
    match cs with
    | [] => none
    | c :: rest =>
      if c = '"' then
        match parseStringBody rest with
        | none => none
        | some (k, r) =>
          match skipWs r with
          | [] => none
          | c2 :: r2 =>
            if c2 = ':' then
              match parseVal fuel (skipWs r2) with
              | none => none
              | some (v, r3) =>
                match skipWs r3 with
                | [] => none
                | c3 :: r4 =>
                  if c3 = ',' then
                    match parseMembers fuel (skipWs r4) with
                    | none => none
                    | some (kvs, r5) => some ((⟨k⟩, v) :: kvs, r5)
                  else if c3 = '\x7d' then some ([(⟨k⟩, v)], r4)
                  else none
            else none
      else none

end

/-- Python `json.loads` on the client's fragment: parse one value,
requiring only whitespace around it. -/
def loads (s : String) : Option Json :=
  match parseVal (s.data.length + 1) (skipWs s.data) with
  | some (v, r) => if skipWs r = [] then some v else none
  | none => none

/-! ### Well-formed values

`Json.wf` carves out the values on which the embedded `dumps`/`loads`
fragment coincides with Python's: strings of printable ASCII (the escapes
`\uXXXX` and non-integer numbers are outside the fragment). -/

/-- Printable ASCII. -/
def wfChar (c : Char) : Bool := decide (32 ≤ c.toNat) && decide (c.toNat < 127)

/-- All characters printable ASCII. -/
def wfString (s : String) : Bool := s.data.all wfChar

mutual

/-- Well-formed JSON values for the round-trip fragment. -/
def Json.wf : Json → Bool
  | .null => true
  | .bool _ => true
  | .num _ => true
  | .str s => wfString s
  | .arr xs => Json.wfL xs
  | .obj kvs => Json.wfM kvs

/-- Well-formedness of element lists. -/
def Json.wfL : List Json → Bool
  | [] => true
  | v :: vs => v.wf && Json.wfL vs

/-- Well-formedness of member lists. -/
def Json.wfM : List (String × Json) → Bool
  | [] => true
  | (k, v) :: kvs => wfString k && v.wf && Json.wfM kvs

end

/-! ### Round-trip lemmas for the JSON fragment -/

/-- The next character (if any) is not a digit — the boundary condition
under which maximal-munch number parsing stops where the printer stopped. -/
def noDigitHead : List Char → Bool
  | [] => true
  | c :: _ => !c.isDigit

theorem digitChar_isDigit (d : ℕ) (h : d < 10) : (digitChar d).isDigit = true := by
  interval_cases d <;> decide

theorem digitVal_digitChar (d : ℕ) (h : d < 10) : digitVal (digitChar d) = d := by
  interval_cases d <;> decide

theorem natToDigits_ne_nil (n : ℕ) : natToDigits n ≠ [] := by
  rw [natToDigits]
  split <;> simp

theorem natToDigits_all_digits (n : ℕ) : ∀ c ∈ natToDigits n, c.isDigit = true := by
  induction n using Nat.strong_induction_on with
  | _ n ih =>
    rw [natToDigits]
    split
    · next h =>
      intro c hc
      simp only [List.mem_singleton] at hc
      subst hc
      exact digitChar_isDigit n h
    · next h =>
      intro c hc
      simp only [List.mem_append, List.mem_singleton] at hc
      rcases hc with hc | hc
      · exact ih (n / 10) (Nat.div_lt_self (by omega) (by omega)) c hc
      · subst hc
        exact digitChar_isDigit (n % 10) (Nat.mod_lt _ (by omega))

theorem isDigit_ne (c x : Char) (h : c.isDigit = true) (hx : x.isDigit = false) : c ≠ x := by
  intro h'
  subst h'
  rw [h] at hx
  exact Bool.noConfusion hx

theorem isWsChar_false_of_isDigit (c : Char) (h : c.isDigit = true) : isWsChar c = false := by
  have h1 : c ≠ ' ' := isDigit_ne _ _ h (by decide)
  have h2 : c ≠ '\t' := isDigit_ne _ _ h (by decide)
  have h3 : c ≠ '\n' := isDigit_ne _ _ h (by decide)
  have h4 : c ≠ '\r' := isDigit_ne _ _ h (by decide)
  simp [isWsChar, h1, h2, h3, h4]

theorem parseDigitsAux_stop (acc : ℕ) (r : List Char) (h : noDigitHead r = true) :
    parseDigitsAux acc r = (acc, r) := by
  cases r with
  | nil => rfl
  | cons c cs =>
    simp only [noDigitHead, Bool.not_eq_true'] at h
    simp [parseDigitsAux, h]

theorem parseDigitsAux_digits (n : ℕ) : ∀ acc r,
    parseDigitsAux acc (natToDigits n ++ r) =
      parseDigitsAux (acc * 10 ^ (natToDigits n).length + n) r := by
  induction n using Nat.strong_induction_on with
  | _ n ih =>
    intro acc r
    rw [natToDigits]
    split
    · next h =>
      simp only [List.singleton_append, List.length_singleton, pow_one]
      simp [parseDigitsAux, digitChar_isDigit n h, digitVal_digitChar n h]
    · next h =>
      rw [List.append_assoc, List.singleton_append,
        ih (n / 10) (Nat.div_lt_self (by omega) (by omega))]
      have h10 : n % 10 < 10 := Nat.mod_lt _ (by omega)
      simp only [parseDigitsAux, digitChar_isDigit _ h10, digitVal_digitChar _ h10, if_pos]
      congr 1
      have hdm : n / 10 * 10 + n % 10 = n := by omega
      have hexp :
          (acc * 10 ^ (natToDigits (n / 10)).length + n / 10) * 10 + n % 10 =
            acc * 10 ^ ((natToDigits (n / 10)).length + 1) + (n / 10 * 10 + n % 10) := by
        ring
      rw [hexp, hdm]
      simp [List.length_append]

theorem parseNat_digits (n : ℕ) (r : List Char) (h : noDigitHead r = true) :
    parseNat (natToDigits n ++ r) = some (n, r) := by
  obtain ⟨c, t, hct⟩ := List.exists_cons_of_ne_nil (natToDigits_ne_nil n)
  have hc : c.isDigit = true := natToDigits_all_digits n c (hct ▸ List.mem_cons_self c t)
  rw [hct, List.cons_append, parseNat]
  simp only [hc, if_pos]
  rw [← List.cons_append, ← hct, parseDigitsAux_digits, parseDigitsAux_stop _ _ h]
  simp

theorem parseIntChars_int (z : ℤ) (r : List Char) (h : noDigitHead r = true) :
    parseIntChars (intToChars z ++ r) = some (z, r) := by
  rw [intToChars]
  split
  · next hz =>
    have habs : -((z.natAbs : ℕ) : ℤ) = z := by omega
    rw [List.cons_append, parseIntChars]
    rw [if_pos rfl, parseNat_digits _ _ h]
    show some (-((z.natAbs : ℕ) : ℤ), r) = some (z, r)
    rw [habs]
  · next hz =>
    obtain ⟨c, t, hct⟩ := List.exists_cons_of_ne_nil (natToDigits_ne_nil z.natAbs)
    have hc : c.isDigit = true := natToDigits_all_digits _ c (hct ▸ List.mem_cons_self c t)
    have hcm : c ≠ '-' := isDigit_ne _ _ hc (by decide)
    have habs : ((z.natAbs : ℕ) : ℤ) = z := by omega
    rw [hct, List.cons_append, parseIntChars]
    rw [if_neg hcm]
    rw [← List.cons_append, ← hct, parseNat_digits _ r h]
    show some (((z.natAbs : ℕ) : ℤ), r) = some (z, r)
    rw [habs]

theorem skipWs_cons_false (c : Char) (t : List Char) (h : isWsChar c = false) :
    skipWs (c :: t) = c :: t := by
  rw [skipWs, h]
  simp

theorem parseStringBody_esc (s : List Char) (r : List Char) (h : s.all wfChar = true) :
    parseStringBody (escString s ++ '"' :: r) = some (s, r) := by
  induction s with
  | nil =>
    show parseStringBody ('"' :: r) = some ([], r)
    rw [parseStringBody.eq_def]
    rfl
  | cons c cs ih =>
    simp only [List.all_cons, Bool.and_eq_true] at h
    obtain ⟨hc, hcs⟩ := h
    simp only [wfChar, Bool.and_eq_true, decide_eq_true_eq] at hc
    obtain ⟨h32, h127⟩ := hc
    by_cases hbs : c = '\\'
    · subst hbs
      show parseStringBody ('\\' :: '\\' :: (escString cs ++ '"' :: r)) = some ('\\' :: cs, r)
      show (parseStringBody (escString cs ++ '"' :: r)).map (fun p => ('\\' :: p.1, p.2)) =
        some ('\\' :: cs, r)
      rw [ih hcs]
      rfl
    · by_cases hq : c = '"'
      · subst hq
        show parseStringBody ('\\' :: '"' :: (escString cs ++ '"' :: r)) = some ('"' :: cs, r)
        show (parseStringBody (escString cs ++ '"' :: r)).map (fun p => ('"' :: p.1, p.2)) =
          some ('"' :: cs, r)
        rw [ih hcs]
        rfl
      · have hn : c ≠ '\n' := by intro h'; subst h'; exact absurd h32 (by decide)
        have ht : c ≠ '\t' := by intro h'; subst h'; exact absurd h32 (by decide)
        have hr' : c ≠ '\r' := by intro h'; subst h'; exact absurd h32 (by decide)
        have hb : ¬c.toNat = 8 := by omega
        have hf : ¬c.toNat = 12 := by omega
        have hctrl : ¬(c.toNat < 32 ∨ 127 ≤ c.toNat) := by omega
        have hec : escapeChar c = [c] := by
          rw [escapeChar, if_neg hbs, if_neg hq, if_neg hn, if_neg ht, if_neg hr', if_neg hb,
            if_neg hf, if_neg hctrl]
        have hes : escString (c :: cs) ++ '"' :: r = c :: (escString cs ++ '"' :: r) := by
          simp [escString, hec]
        rw [hes, parseStringBody.eq_def]
        simp only [if_neg hq, if_neg hbs, if_neg (by omega : ¬c.toNat < 32)]
        rw [ih hcs]
        rfl

theorem intToChars_head (z : ℤ) :
    ∃ c t, intToChars z = c :: t ∧ (c.isDigit = true ∨ c = '-') := by
  rw [intToChars]
  split
  · exact ⟨'-', _, rfl, Or.inr rfl⟩
  · obtain ⟨c, t, hct⟩ := List.exists_cons_of_ne_nil (natToDigits_ne_nil z.natAbs)
    exact ⟨c, t, hct, Or.inl (natToDigits_all_digits _ c (hct ▸ List.mem_cons_self c t))⟩

theorem dumpChars_head (v : Json) :
    ∃ c t, dumpChars v = c :: t ∧ isWsChar c = false ∧ c ≠ ']' ∧ c ≠ '\x7d' := by
  cases v with
  | null => exact ⟨'n', _, by rw [dumpChars], by decide, by decide, by decide⟩
  | bool b =>
    cases b
    · exact ⟨'f', _, by rw [dumpChars], by decide, by decide, by decide⟩
    · exact ⟨'t', _, by rw [dumpChars], by decide, by decide, by decide⟩
  | num n =>
    obtain ⟨c, t, hct, hc⟩ := intToChars_head n
    refine ⟨c, t, by rw [dumpChars, hct], ?_, ?_, ?_⟩
    · rcases hc with hd | rfl
      · exact isWsChar_false_of_isDigit c hd
      · decide
    · rcases hc with hd | rfl
      · exact isDigit_ne _ _ hd (by decide)
      · decide
    · rcases hc with hd | rfl
      · exact isDigit_ne _ _ hd (by decide)
      · decide
  | str s => exact ⟨'"', _, by rw [dumpChars], by decide, by decide, by decide⟩
  | arr xs => exact ⟨'[', _, by rw [dumpChars], by decide, by decide, by decide⟩
  | obj kvs => exact ⟨'\x7b', _, by rw [dumpChars], by decide, by decide, by decide⟩

theorem one_le_length_dumpChars (v : Json) : 1 ≤ (dumpChars v).length := by
  obtain ⟨c, t, hct, -, -, -⟩ := dumpChars_head v
  rw [hct]
  simp

theorem skipWs_dump (v : Json) (x : List Char) :
    skipWs (dumpChars v ++ x) = dumpChars v ++ x := by
  obtain ⟨c, t, hct, hws, -, -⟩ := dumpChars_head v
  rw [hct, List.cons_append, skipWs_cons_false _ _ hws]

theorem dumpElems_cons (v : Json) (vs : List Json) :
    ∃ u, dumpElems (v :: vs) = dumpChars v ++ u := by
  cases vs with
  | nil => exact ⟨[], by rw [dumpElems, List.append_nil]⟩
  | cons w ws => exact ⟨',' :: ' ' :: dumpElems (w :: ws), by rw [dumpElems]; simp⟩

theorem dumpMembers_cons (k : String) (x : Json) (kvs : List (String × Json)) :
    ∃ u, dumpMembers ((k, x) :: kvs) = dumpKV k x ++ u := by
  cases kvs with
  | nil => exact ⟨[], by rw [dumpMembers, List.append_nil]⟩
  | cons w ws => exact ⟨',' :: ' ' :: dumpMembers (w :: ws), by rw [dumpMembers]; simp⟩

theorem skipWs_space (x : List Char) : skipWs (' ' :: x) = skipWs x := by
  rw [skipWs]
  simp [isWsChar]

theorem noDigitHead_cons (c : Char) (x : List Char) (h : c.isDigit = false) :
    noDigitHead (c :: x) = true := by
  rw [noDigitHead, h]
  rfl

theorem parse_dump (fuel : ℕ) :
    (∀ v r, Json.wf v = true → (dumpChars v).length < fuel → noDigitHead r = true →
      parseVal fuel (dumpChars v ++ r) = some (v, r)) ∧
    (∀ vs r, Json.wfL vs = true → vs ≠ [] → (dumpElems vs).length + 1 < fuel →
      parseElems fuel (dumpElems vs ++ ']' :: r) = some (vs, r)) ∧
    (∀ kvs r, Json.wfM kvs = true → kvs ≠ [] → (dumpMembers kvs).length + 1 < fuel →
      parseMembers fuel (dumpMembers kvs ++ '\x7d' :: r) = some (kvs, r)) := by
  induction fuel with
  | zero =>
    exact ⟨fun v r _ hl _ => absurd hl (by omega),
      fun vs r _ _ hl => absurd hl (by omega),
      fun kvs r _ _ hl => absurd hl (by omega)⟩
  | succ fuel ih =>
    obtain ⟨ihV, ihE, ihM⟩ := ih
    refine ⟨?_, ?_, ?_⟩
    · intro v r hwf hlen hnd
      cases v with
      | null =>
        rw [dumpChars]
        simp [parseVal]
      | bool b =>
        cases b
        · rw [dumpChars]
          simp [parseVal]
        · rw [dumpChars]
          simp [parseVal]
      | num n =>
        rw [dumpChars]
        obtain ⟨c, t, hct, hc⟩ := intToChars_head n
        have h1 : c ≠ 'n' := by
          rcases hc with hd | rfl
          exacts [isDigit_ne _ _ hd (by decide), by decide]
        have h2 : c ≠ 't' := by
          rcases hc with hd | rfl
          exacts [isDigit_ne _ _ hd (by decide), by decide]
        have h3 : c ≠ 'f' := by
          rcases hc with hd | rfl
          exacts [isDigit_ne _ _ hd (by decide), by decide]
        have h4 : c ≠ '"' := by
          rcases hc with hd | rfl
          exacts [isDigit_ne _ _ hd (by decide), by decide]
        have h5 : c ≠ '[' := by
          rcases hc with hd | rfl
          exacts [isDigit_ne _ _ hd (by decide), by decide]
        have h6 : c ≠ '\x7b' := by
          rcases hc with hd | rfl
          exacts [isDigit_ne _ _ hd (by decide), by decide]
        rw [hct, List.cons_append, parseVal]
        simp only [if_neg h1, if_neg h2, if_neg h3, if_neg h4, if_neg h5, if_neg h6]
        rw [← List.cons_append, ← hct, parseIntChars_int n r hnd]
        rfl
      | str s =>
        rw [dumpChars]
        simp only [List.cons_append, List.nil_append, List.append_assoc, List.singleton_append]
        rw [parseVal]
        have hwfs : s.data.all wfChar = true := by
          rw [Json.wf] at hwf
          exact hwf
        rw [parseStringBody_esc s.data r hwfs]
        rfl
      | arr xs =>
        cases xs with
        | nil =>
          rw [dumpChars, dumpElems]
          simp [parseVal, skipWs, isWsChar]
        | cons v vs =>
          have hwf2 : Json.wfL (v :: vs) = true := by rw [Json.wf] at hwf; exact hwf
          have hlen2 : (dumpElems (v :: vs)).length + 1 < fuel := by
            rw [dumpChars] at hlen
            simp only [List.length_cons, List.length_append, List.length_singleton] at hlen
            omega
          have hE := ihE (v :: vs) r hwf2 (List.cons_ne_nil v vs) hlen2
          obtain ⟨u, hu⟩ := dumpElems_cons v vs
          obtain ⟨c, t, hct, hws, hnb, hnbr⟩ := dumpChars_head v
          rw [dumpChars]
          simp only [List.cons_append, List.nil_append, List.append_assoc,
            List.singleton_append]
          rw [parseVal]
          rw [hu, hct] at hE ⊢
          simp only [List.cons_append, List.append_assoc] at hE ⊢
          rw [skipWs_cons_false _ _ hws]
          dsimp only
          rw [if_neg hnb, hE]
          rfl
      | obj kvs =>
        cases kvs with
        | nil =>
          rw [dumpChars, dumpMembers]
          simp [parseVal, skipWs, isWsChar]
        | cons kv tail =>
          obtain ⟨k, x⟩ := kv
          have hwf2 : Json.wfM ((k, x) :: tail) = true := by rw [Json.wf] at hwf; exact hwf
          have hlen2 : (dumpMembers ((k, x) :: tail)).length + 1 < fuel := by
            rw [dumpChars] at hlen
            simp only [List.length_cons, List.length_append, List.length_singleton] at hlen
            omega
          have hM := ihM ((k, x) :: tail) r hwf2 (List.cons_ne_nil _ _) hlen2
          obtain ⟨u, hu⟩ := dumpMembers_cons k x tail
          rw [dumpChars]
          simp only [List.cons_append, List.nil_append, List.append_assoc,
            List.singleton_append]
          rw [parseVal]
          rw [hu, dumpKV] at hM ⊢
          simp only [List.cons_append, List.append_assoc] at hM ⊢
          rw [skipWs_cons_false _ _ (by decide)]
          dsimp only
          rw [if_neg (by decide : ¬('"' : Char) = '\x7d'), hM]
          rfl
    · intro vs r hwf hne hlen
      cases vs with
      | nil => exact absurd rfl hne
      | cons v tail =>
        have hwfv : v.wf = true ∧ Json.wfL tail = true := by
          rw [Json.wfL, Bool.and_eq_true] at hwf
          exact hwf
        cases tail with
        | nil =>
          rw [dumpElems] at hlen ⊢
          rw [parseElems]
          rw [ihV v (']' :: r) hwfv.1 (by omega) (noDigitHead_cons _ _ (by decide))]
          dsimp only
          rw [skipWs_cons_false _ _ (by decide)]
          dsimp only
          rw [if_neg (by decide : ¬(']' : Char) = ','), if_pos rfl]
        | cons w ws =>
          have hlenv : 1 ≤ (dumpChars v).length := one_le_length_dumpChars v
          rw [dumpElems] at hlen ⊢
          rotate_left
          · exact fun h => List.noConfusion h
          · exact fun h => List.noConfusion h
          simp only [List.length_append, List.length_cons] at hlen
          have hlenV : (dumpChars v).length < fuel := by omega
          have hlenT : (dumpElems (w :: ws)).length + 1 < fuel := by omega
          simp only [List.cons_append, List.append_assoc]
          rw [parseElems]
          rw [ihV v (',' :: ' ' :: (dumpElems (w :: ws) ++ ']' :: r)) hwfv.1 hlenV
            (noDigitHead_cons _ _ (by decide))]
          dsimp only
          rw [skipWs_cons_false _ _ (by decide)]
          dsimp only
          rw [if_pos rfl, skipWs_space]
          have hE := ihE (w :: ws) r hwfv.2 (List.cons_ne_nil _ _) hlenT
          obtain ⟨u2, hu2⟩ := dumpElems_cons w ws
          rw [hu2, List.append_assoc] at hE ⊢
          rw [skipWs_dump, hE]
    · intro kvs r hwf hne hlen
      cases kvs with
      | nil => exact absurd rfl hne
      | cons kv tail =>
        obtain ⟨k, x⟩ := kv
        have hwfkv : wfString k = true ∧ x.wf = true ∧ Json.wfM tail = true := by
          rw [Json.wfM, Bool.and_eq_true, Bool.and_eq_true] at hwf
          exact ⟨hwf.1.1, hwf.1.2, hwf.2⟩
        cases tail with
        | nil =>
          rw [dumpMembers] at hlen ⊢
          rw [dumpKV] at hlen ⊢
          simp only [List.length_cons, List.length_append] at hlen
          simp only [List.cons_append, List.append_assoc]
          rw [parseMembers]
          rw [if_pos rfl]
          rw [parseStringBody_esc k.data _ hwfkv.1]
          dsimp only
          rw [skipWs_cons_false _ _ (by decide)]
          dsimp only
          rw [if_pos rfl, skipWs_space, skipWs_dump]
          rw [ihV x ('\x7d' :: r) hwfkv.2.1 (by omega) (noDigitHead_cons _ _ (by decide))]
          dsimp only
          rw [skipWs_cons_false _ _ (by decide)]
          dsimp only
          rw [if_neg (by decide : ¬('\x7d' : Char) = ','), if_pos rfl]
        | cons kv2 ws =>
          obtain ⟨k2, x2⟩ := kv2
          have hlenx : 1 ≤ (dumpChars x).length := one_le_length_dumpChars x
          rw [dumpMembers] at hlen ⊢
          rotate_left
          · exact fun h => List.noConfusion h
          · exact fun h => List.noConfusion h
          rw [dumpKV] at hlen ⊢
          simp only [List.length_cons, List.length_append] at hlen
          have hlenV : (dumpChars x).length < fuel := by omega
          have hlenT : (dumpMembers ((k2, x2) :: ws)).length + 1 < fuel := by omega
          simp only [List.cons_append, List.append_assoc]
          rw [parseMembers]
          rw [if_pos rfl]
          rw [parseStringBody_esc k.data _ hwfkv.1]
          dsimp only
          rw [skipWs_cons_false _ _ (by decide)]
          dsimp only
          rw [if_pos rfl, skipWs_space, skipWs_dump]
          rw [ihV x (',' :: ' ' :: (dumpMembers ((k2, x2) :: ws) ++ '\x7d' :: r)) hwfkv.2.1
            hlenV (noDigitHead_cons _ _ (by decide))]
          dsimp only
          rw [skipWs_cons_false _ _ (by decide)]
          dsimp only
          rw [if_pos rfl, skipWs_space]
          have hM := ihM ((k2, x2) :: ws) r hwfkv.2.2 (List.cons_ne_nil _ _) hlenT
          obtain ⟨u3, hu3⟩ := dumpMembers_cons k2 x2 ws
          rw [hu3, dumpKV] at hM ⊢
          simp only [List.cons_append, List.append_assoc] at hM ⊢
          rw [skipWs_cons_false _ _ (by decide), hM]

/-- Decoding what was encoded gives back the value: `json.loads` applied
to `json.dumps v` returns `v` itself, for every well-formed value of the
fragment. -/
theorem loads_dumps (v : Json) (h : v.wf = true) : loads (Json.dumps v) = some v := by
  have hdata : (Json.dumps v).data = dumpChars v := rfl
  have hskip : skipWs (dumpChars v) = dumpChars v := by
    obtain ⟨c, t, hct, hws, -, -⟩ := dumpChars_head v
    rw [hct, skipWs_cons_false _ _ hws]
  have hparse := (parse_dump ((dumpChars v).length + 1)).1 v [] h (by omega) rfl
  rw [List.append_nil] at hparse
  rw [loads, hdata, hskip, hparse]
  rfl

/-! ## The data-channel event router

`_handle_message` (voice_client.py lines 264–311), the local function
table `_handle_local_function` (313–337) and `send_function_result`
(339–357), embedded as pure functions from the decoded message and the
relevant client state to the list of externally visible actions, in
order.  Python runtime errors (an `AttributeError` from `.get` on a
non-dict, a `TypeError` from `json.loads` on a non-string) are explicit
in an `Except` result; when an error is raised, no action listed in the
result has been performed beyond those already emitted — the model
returns the error with no actions, matching the Python code in which the
sends happen only after all the accesses that can raise. -/

/-- Python runtime errors the router can raise. -/
inductive PyErr where
  | attributeError : PyErr
  | typeError : PyErr
deriving Repr, DecidableEq

/-- Which of the client's optional callbacks are set (not `None`). -/
structure Callbacks where
  onTranscript : Bool
  onAssistantMessage : Bool
  onFunctionCall : Bool

/-- The externally visible actions of the router, in order. -/
inductive OutAction where
  | callTranscript (transcript : Json)
  | callAssistantMessage (transcript : Json)
  | printDelta (delta : Json)
  | printNewline
  | callFunctionCall (name : Json) (args : Json) (callId : Json)
  | sendData (payload : String)
deriving Repr

/-- Python `value.get(key)`: field lookup on a dict, `AttributeError` on
any value that is not a dict. -/
def Json.objGet : Json → String → Except PyErr (Option Json)
  | .obj kvs, key => .ok (lookupField kvs key)
  | _, _ => .error .attributeError

/-- The local function table `_handle_local_function` (lines 313–337):
`some result` for the four local function names (with the defaulted
argument lookups of the source), `none` for every other name. -/
def handleLocalFunction (name : Json) (args : Json) : Except PyErr (Option Json) :=
  if name == Json.str "set_device_volume" then do
    let level ← args.objGet "volume_level"
    .ok (some (.obj [("success", .bool true), ("volume", level.getD (.num 50))]))
  else if name == Json.str "adjust_device_volume" then do
    let action ← args.objGet "action"
    .ok (some (.obj [("success", .bool true), ("action", action.getD (.str "increase"))]))
  else if name == Json.str "quiet_device" then
    .ok (some (.obj [("success", .bool true), ("volume", .num 0)]))
  else if name == Json.str "stop_audio" then
    .ok (some (.obj [("success", .bool true), ("message", .str "Audio stopped")]))
  else .ok none

/-- The first outbound message of a function result (lines 345–352): a
`conversation.item.create` carrying a `function_call_output` item whose
`output` field is the JSON-encoded result. -/
def functionOutputMessage (callId : Json) (result : Json) : Json :=
  .obj [("type", .str "conversation.item.create"),
        ("item", .obj [("type", .str "function_call_output"),
                       ("call_id", callId),
                       ("output", .str (Json.dumps result))])]

/-- The response-trigger message (lines 354–357). -/
def responseCreateMessage : Json := .obj [("type", .str "response.create")]

/-- `send_function_result` (lines 339–357): the sends it performs, given
the data-channel state (`none` when `self.data_channel` is unset,
otherwise `some readyState`).  When the channel is missing or not open it
only logs a warning: no send, no error, no state change. -/
def sendFunctionResult (channel : Option String) (callId : Json) (result : Json) :
    List OutAction :=
  match channel with
  | some state =>
    if state = "open" then
      [.sendData (Json.dumps (functionOutputMessage callId result)),
       .sendData (Json.dumps responseCreateMessage)]
    else []
  | none => []

/-- `_handle_message` (lines 264–311): dispatch on the event `type`,
with the local-function short circuit for `response.output_item.done`
function-call items. -/
def handleMessage (cbs : Callbacks) (channel : Option String) (message : Json) :
    Except PyErr (List OutAction) := do
  let msgType := (← message.objGet "type").getD (.str "")
  if msgType == Json.str "conversation.item.input_audio_transcription.completed" then
    let transcript := (← message.objGet "transcript").getD (.str "")
    pure (if cbs.onTranscript then [.callTranscript transcript] else [])
  else if msgType == Json.str "response.audio_transcript.delta" then
    let delta := (← message.objGet "delta").getD (.str "")
    pure [.printDelta delta]
  else if msgType == Json.str "response.audio_transcript.done" then
    let transcript := (← message.objGet "transcript").getD (.str "")
    pure (.printNewline ::
      (if cbs.onAssistantMessage then [.callAssistantMessage transcript] else []))
  else if msgType == Json.str "response.output_item.done" then
    let item := (← message.objGet "item").getD (.obj [])
    if (← item.objGet "type") == some (Json.str "function_call") then
      let name := (← item.objGet "name").getD (.str "")
      let argsJson := (← item.objGet "arguments").getD (.str "\x7b\x7d")
      let callId := (← item.objGet "call_id").getD (.str "")
      let argsStr ← match argsJson with
        | .str s => Except.ok s
        | _ => Except.error .typeError
      let args := (loads argsStr).getD (.obj [])
      match ← handleLocalFunction name args with
      | some result => pure (sendFunctionResult channel callId result)
      | none => pure (if cbs.onFunctionCall then [.callFunctionCall name args callId] else [])
    else pure []
  else pure []

/-- A function-call event: `response.output_item.done` carrying a
`function_call` item with the given name, encoded argument string and
call id. -/
def fcEvent (name argsStr callId : String) : Json :=
  .obj [("type", .str "response.output_item.done"),
        ("item", .obj [("type", .str "function_call"),
                       ("name", .str name),
                       ("arguments", .str argsStr),
                       ("call_id", .str callId)])]

/-! ## Session creation and the peer-connection configuration
(`connect()`, voice_client.py lines 52–81) -/

/-- The parsed JSON body of a session-create response: the `id` and the
optional `iceServers` list the client reads (each ICE server descriptor
is an opaque JSON value passed through unchanged). -/
structure SessionJson where
  id : Option Json
  iceServers : Option (List Json)

/-- An HTTP response to the session-create call: status code, body text,
and the parsed JSON body (which the client reads only on status 200). -/
structure HttpResponse where
  status : ℕ
  body : String
  json : SessionJson

/-- The failure raised at line 69, carrying the status and response body. -/
structure SignalingError where
  status : ℕ
  body : String
deriving Repr, DecidableEq

/-- The peer-connection configuration dict the client builds: `none` when
the `iceServers` key is not set, `some l` when `config['iceServers'] = l`. -/
abbrev PcConfig := Option (List Json)

/-- The client-state fields touched by session creation: `__init__`
(lines 43–45) leaves `pc`, `data_channel` and `session` unset. -/
structure ClientState where
  pc : Option PcConfig
  dataChannel : Option String
  session : Option SessionJson

/-- A freshly constructed client. -/
def initClient : ClientState := ⟨none, none, none⟩

/-- Step 1 of `connect()` (lines 57–70): a non-200 status raises the
signaling error carrying status and body, with the state untouched; a
200 status stores the parsed session. -/
def createSessionStep (st : ClientState) (resp : HttpResponse) :
    ClientState × Option SignalingError :=
  if resp.status ≠ 200 then (st, some ⟨resp.status, resp.body⟩)
  else ({ st with session := some resp.json }, none)

/-- `ice_servers = self.session.get('iceServers', [])` (line 74). -/
def iceServersOf (s : SessionJson) : List Json := s.iceServers.getD []

/-- The configuration dict built at lines 77–79: the `iceServers` key is
set exactly when the list is nonempty (`if ice_servers:` is false on an
empty list). -/
def pcConfigOf (s : SessionJson) : PcConfig :=
  if (iceServersOf s).isEmpty then none else some (iceServersOf s)

/-- The ICE-server list a configuration denotes: an absent key means no
ICE servers. -/
def effectiveIceServers (c : PcConfig) : List Json := c.getD []

/-! ## The ICE-gathering wait (lines 172–174) -/

/-- The polling loop `while self.pc.iceGatheringState != 'complete':
await asyncio.sleep(0.1)`, abstracted over the trace of gathering states:
`complete n = true` says the state reads `'complete'` at poll `n`.  The
wait starting at poll `n` exits at the first complete poll; `fuel` bounds
how many polls are observed, so `none` means the loop is still running
after `fuel` polls.  `connect()` reaches the SDP description exchange
(line 179) exactly when this wait has returned. -/
def iceWait (complete : ℕ → Bool) : ℕ → ℕ → Option ℕ
  | _, 0 => none
  | n, fuel + 1 => if complete n then some n else iceWait complete (n + 1) fuel

/-- Whether `connect()` has reached the SDP description exchange within
`fuel` polls of the ICE wait. -/
def sdpExchangeReached (complete : ℕ → Bool) (fuel : ℕ) : Bool :=
  (iceWait complete 0 fuel).isSome

/-! ## The audio playback pipeline, per-frame processing (lines 230–245) -/

/-- Channel collapsing for a 2-D `(channels, samples)` frame (lines
230–238): a one-channel or two-channel frame takes channel 0
(`audio_data[0]`), any other channel count falls to
`audio_data.flatten()`, which concatenates all channels in row order. -/
def collapseChannels {α : Type} (rows : List (List α)) : List α :=
  match rows with
  | [row] => row
  | [row, _] => row
  | other => other.flatten

/-- numpy's cast to `int16` on an integer value: reduction into the
signed 16-bit range modulo `2^16`. -/
def wrap16 (z : ℤ) : ℤ := (z + 32768) % 65536 - 32768

/-- Truncation toward zero, as the C float-to-integer cast truncates. -/
def truncToward0 (q : ℚ) : ℤ := if 0 ≤ q then ⌊q⌋ else ⌈q⌉

/-- `(audio_data * 32767).astype(np.int16)` on one floating-point sample
(line 243, exact-rational model): scale by the full signed 16-bit range,
truncate toward zero, wrap into 16 bits. -/
def floatSampleToI16 (q : ℚ) : ℤ := wrap16 (truncToward0 (q * 32767))

/-- `audio_data.astype(np.int16)` on one sample of another integer width
(line 245): no rescaling, wrap into 16 bits. -/
def intSampleToI16 (z : ℤ) : ℤ := wrap16 z

/-- A frame's sample buffer tagged with its dtype: the sink-native
`int16`, the two floating dtypes the code scales, or another integer
width. -/
inductive Samples where
  | i16 (xs : List ℤ)
  | f32 (xs : List ℚ)
  | f64 (xs : List ℚ)
  | otherInt (xs : List ℤ)

/-- The dtype conversion of lines 240–245: `int16` passes through
untouched, `float32`/`float64` are scaled and truncated, every other
integer dtype is cast without rescaling. -/
def ensureInt16 : Samples → List ℤ
  | .i16 xs => xs
  | .f32 xs => xs.map floatSampleToI16
  | .f64 xs => xs.map floatSampleToI16
  | .otherInt xs => xs.map intSampleToI16

/-! ## Claim theorems -/

/-- C3: for every session-create response with a status other than 200,
`connect()` fails with an error carrying the status and response body,
and the client's peer-connection field is still unset when the error is
raised. -/
theorem c3_session_create_failure (resp : HttpResponse) (h : resp.status ≠ 200) :
    (createSessionStep initClient resp).2 = some ⟨resp.status, resp.body⟩ ∧
      (createSessionStep initClient resp).1.pc = none := by
  rw [createSessionStep, if_pos h]
  exact ⟨rfl, rfl⟩

/-- Witness for C3 at a concrete 500 response. -/
theorem c3_witness :
    (createSessionStep initClient ⟨500, "boom", ⟨none, none⟩⟩).2 = some ⟨500, "boom"⟩ ∧
      (createSessionStep initClient ⟨500, "boom", ⟨none, none⟩⟩).1.pc = none :=
  c3_session_create_failure ⟨500, "boom", ⟨none, none⟩⟩ (by decide)

/-- C4: for every valid session-create response, the peer-connection
configuration denotes exactly the response's `iceServers` list when the
field is present, and the empty list (with no failure — the construction
is a total function) when the field is absent. -/
theorem c4_ice_servers (s : SessionJson) :
    (∀ l, s.iceServers = some l → effectiveIceServers (pcConfigOf s) = l) ∧
      (s.iceServers = none → effectiveIceServers (pcConfigOf s) = []) := by
  constructor
  · intro l hl
    rw [pcConfigOf, iceServersOf, hl]
    cases l with
    | nil => simp [effectiveIceServers]
    | cons a as => simp [effectiveIceServers]
  · intro h0
    rw [pcConfigOf, iceServersOf, h0]
    simp [effectiveIceServers]

/-- Witness for C4 at a session with one ICE server. -/
theorem c4_witness :
    effectiveIceServers (pcConfigOf ⟨none, some [Json.str "stun:example"]⟩) =
      [Json.str "stun:example"] :=
  (c4_ice_servers ⟨none, some [Json.str "stun:example"]⟩).1 [Json.str "stun:example"] rfl

/-- C7: the SDP description exchange is reached only after a poll at
which ICE gathering reports complete, and when gathering never reports
complete the wait never returns, for any number of polls observed —
`connect()` never proceeds past the wait. -/
theorem c7_ice_gate (complete : ℕ → Bool) (fuel : ℕ) :
    (∀ start n, iceWait complete start fuel = some n → complete n = true) ∧
      ((∀ k, complete k = false) → sdpExchangeReached complete fuel = false) := by
  constructor
  · induction fuel with
    | zero =>
      intro start n h
      rw [iceWait] at h
      exact absurd h (by simp)
    | succ fuel ih =>
      intro start n h
      rw [iceWait] at h
      by_cases hc : complete start = true
      · rw [if_pos hc] at h
        obtain rfl : start = n := by simpa using h
        exact hc
      · rw [if_neg hc] at h
        exact ih (start + 1) n h
  · intro hall
    have hnone : ∀ f start, iceWait complete start f = none := by
      intro f
      induction f with
      | zero => intro start; rfl
      | succ f ihf =>
        intro start
        rw [iceWait, hall start]
        simpa using ihf (start + 1)
    rw [sdpExchangeReached, hnone fuel 0]
    rfl

/-- Witness for C7: a trace completing at poll 0 is accepted at poll 0,
and a never-completing trace never reaches the exchange in 5 polls. -/
theorem c7_witness :
    (fun _ => true : ℕ → Bool) 0 = true ∧
      sdpExchangeReached (fun _ => false) 5 = false :=
  ⟨(c7_ice_gate (fun _ => true) 1).1 0 0 rfl,
    (c7_ice_gate (fun _ => false) 5).2 (fun _ => rfl)⟩

/-- C9: every call to `send_function_result` made while the data channel
is unset or not open performs no send at all (the model returns an empty
action list; the Python function only logs a warning and returns, so no
error is raised and no client state is touched). -/
theorem c9_send_on_closed_channel (channel : Option String) (callId result : Json)
    (h : channel ≠ some "open") :
    sendFunctionResult channel callId result = [] := by
  cases channel with
  | none => rfl
  | some state =>
    have hs : ¬state = "open" := by
      intro h'
      exact h (by rw [h'])
    rw [sendFunctionResult, if_neg hs]

/-- Witness for C9 with the channel unset. -/
theorem c9_witness :
    sendFunctionResult none (.str "call-7") (.obj [("success", .bool true)]) = [] :=
  c9_send_on_closed_channel none (.str "call-7") (.obj [("success", .bool true)])
    (by simp)

/-- C2 counterexample: a three-channel 2-D frame is flattened — all
channels concatenated — so the collapsed output is not channel 0, against
the claim that channel 0 is taken for any channel count. -/
theorem c2_counterexample :
    collapseChannels [[(1 : ℤ), 2], [3, 4], [5, 6]] = [1, 2, 3, 4, 5, 6] ∧
      collapseChannels [[(1 : ℤ), 2], [3, 4], [5, 6]] ≠ [1, 2] := by
  constructor
  · rfl
  · intro h
    exact absurd h (by decide)

/-- C2 (amended): a 2-D frame with one or two channels collapses to
channel 0 — in particular the stereo output is identical to the first
channel whatever the second holds, never an average — while a frame with
three or more channels is flattened (all channels concatenated). -/
theorem c2_collapse (row : List ℤ) :
    collapseChannels [row] = row ∧
      (∀ row2, collapseChannels [row, row2] = row) ∧
      (∀ rows : List (List ℤ), 3 ≤ rows.length → collapseChannels rows = rows.flatten) := by
  refine ⟨rfl, fun row2 => rfl, ?_⟩
  intro rows h3
  cases rows with
  | nil => simp at h3
  | cons a t1 =>
    cases t1 with
    | nil => simp at h3
    | cons b t2 =>
      cases t2 with
      | nil => simp at h3
      | cons c t3 => rfl

/-- Witness for C2 (amended) at concrete mono, stereo and 3-channel
frames. -/
theorem c2_witness :
    collapseChannels [[(7 : ℤ)]] = [7] ∧
      collapseChannels [[(7 : ℤ)], [8]] = [7] ∧
      collapseChannels [[(1 : ℤ)], [2], [3]] = ([[(1 : ℤ)], [2], [3]]).flatten :=
  ⟨(c2_collapse [7]).1, (c2_collapse [7]).2.1 [8],
    (c2_collapse [1]).2.2 [[1], [2], [3]] (by decide)⟩

/-- Lemma: the 16-bit wrap is the identity inside the signed range. -/
theorem wrap16_eq_self (z : ℤ) (h1 : -32768 ≤ z) (h2 : z ≤ 32767) : wrap16 z = z := by
  rw [wrap16]
  omega

/-- C6 counterexample: the floating sample `2.0` (outside `[-1, 1]`)
scales and truncates to `65534`, which does not fit the signed 16-bit
range, and the conversion wraps it to `-2` — the conversion does
overflow the 16-bit signed integer type for floating input. -/
theorem c6_counterexample :
    ensureInt16 (.f64 [2]) = [-2] ∧
      truncToward0 ((2 : ℚ) * 32767) = 65534 ∧
      ¬(-32768 ≤ (65534 : ℤ) ∧ (65534 : ℤ) ≤ 32767) := by
  refine ⟨?_, ?_, by decide⟩
  · show [floatSampleToI16 2] = [-2]
    rw [floatSampleToI16, truncToward0, if_pos (by norm_num)]
    rw [show ((2 : ℚ) * 32767) = ((65534 : ℤ) : ℚ) by norm_num, Int.floor_intCast]
    rw [wrap16]
    norm_num
  · rw [truncToward0, if_pos (by norm_num)]
    rw [show ((2 : ℚ) * 32767) = ((65534 : ℤ) : ℚ) by norm_num, Int.floor_intCast]

/-- C6 (amended): the playback conversion is the identity on frames
already in the native `int16` dtype; floating samples are scaled by the
full signed-16-bit range and truncated toward zero, and for samples in
`[-1.0, 1.0]` the truncated value already lies within the 16-bit signed
range, so no wrapping occurs (samples outside that range wrap modulo
`2^16`, as the counterexample shows); other integer widths are converted
without rescaling — the value is preserved modulo `2^16`, exactly when it
already fits the signed 16-bit range. -/
theorem c6_conversion :
    (∀ xs : List ℤ, ensureInt16 (.i16 xs) = xs) ∧
      (∀ q : ℚ, -1 ≤ q → q ≤ 1 →
        floatSampleToI16 q = truncToward0 (q * 32767) ∧
          -32767 ≤ floatSampleToI16 q ∧ floatSampleToI16 q ≤ 32767) ∧
      (∀ z : ℤ, intSampleToI16 z % 65536 = z % 65536 ∧
        (-32768 ≤ z → z ≤ 32767 → intSampleToI16 z = z)) := by
  refine ⟨fun xs => rfl, ?_, ?_⟩
  · intro q h1 h2
    have hup : q * 32767 ≤ 32767 := by nlinarith
    have hlo : -32767 ≤ q * 32767 := by nlinarith
    have htr : -32767 ≤ truncToward0 (q * 32767) ∧ truncToward0 (q * 32767) ≤ 32767 := by
      rw [truncToward0]
      split
      · next hpos =>
        constructor
        · have : (0 : ℤ) ≤ ⌊q * 32767⌋ := Int.floor_nonneg.mpr hpos
          omega
        · have : ⌊q * 32767⌋ ≤ ⌊(32767 : ℚ)⌋ := Int.floor_le_floor hup
          simpa using this
      · next hneg =>
        constructor
        · have : ⌈(-32767 : ℚ)⌉ ≤ ⌈q * 32767⌉ := Int.ceil_le_ceil hlo
          simpa using this
        · have : ⌈q * 32767⌉ ≤ 0 := Int.ceil_le.mpr (by simpa using le_of_not_le hneg)
          omega
    have hid : floatSampleToI16 q = truncToward0 (q * 32767) := by
      rw [floatSampleToI16, wrap16_eq_self _ (by omega) htr.2]
    exact ⟨hid, by rw [hid]; exact htr.1, by rw [hid]; exact htr.2⟩
  · intro z
    constructor
    · rw [intSampleToI16, wrap16]
      omega
    · intro h1 h2
      rw [intSampleToI16, wrap16_eq_self z h1 h2]

/-- Witness for C6 (amended) at concrete `int16`, in-range float and
integer samples. -/
theorem c6_witness :
    ensureInt16 (.i16 [5]) = [5] ∧
      (floatSampleToI16 (1 / 2) = truncToward0 ((1 / 2 : ℚ) * 32767) ∧
        -32767 ≤ floatSampleToI16 (1 / 2) ∧ floatSampleToI16 (1 / 2) ≤ 32767) ∧
      intSampleToI16 70000 % 65536 = (70000 : ℤ) % 65536 ∧
      intSampleToI16 7 = 7 :=
  ⟨c6_conversion.1 [5],
    c6_conversion.2.1 (1 / 2) (by norm_num) (by norm_num),
    (c6_conversion.2.2 70000).1,
    (c6_conversion.2.2 7).2 (by norm_num) (by norm_num)⟩

/-- Equality test on two string values is string equality. -/
theorem json_str_beq (a b : String) : (Json.str a == Json.str b) = (a == b) := rfl

/-- C10: with missing or unparseable arguments the local handler still
answers with its fixed defaults: `set_device_volume` without
`volume_level` yields `volume 50`, `adjust_device_volume` without
`action` yields `action "increase"`, and `quiet_device` / `stop_audio`
never read the arguments at all. -/
theorem c10_local_function_defaults :
    (∀ kvs : List (String × Json), lookupField kvs "volume_level" = none →
      handleLocalFunction (.str "set_device_volume") (.obj kvs) =
        .ok (some (.obj [("success", .bool true), ("volume", .num 50)]))) ∧
      (∀ kvs : List (String × Json), lookupField kvs "action" = none →
        handleLocalFunction (.str "adjust_device_volume") (.obj kvs) =
          .ok (some (.obj [("success", .bool true), ("action", .str "increase")]))) ∧
      (∀ args : Json, handleLocalFunction (.str "quiet_device") args =
        .ok (some (.obj [("success", .bool true), ("volume", .num 0)]))) ∧
      (∀ args : Json, handleLocalFunction (.str "stop_audio") args =
        .ok (some (.obj [("success", .bool true), ("message", .str "Audio stopped")]))) := by
  refine ⟨?_, ?_, fun args => rfl, fun args => rfl⟩
  · intro kvs h
    have e : handleLocalFunction (.str "set_device_volume") (.obj kvs) =
        .ok (some (.obj [("success", .bool true),
          ("volume", (lookupField kvs "volume_level").getD (.num 50))])) := rfl
    rw [e, h]
    rfl
  · intro kvs h
    have e : handleLocalFunction (.str "adjust_device_volume") (.obj kvs) =
        .ok (some (.obj [("success", .bool true),
          ("action", (lookupField kvs "action").getD (.str "increase"))])) := rfl
    rw [e, h]
    rfl

/-- Witness for C10 at empty and non-dict arguments. -/
theorem c10_witness :
    handleLocalFunction (.str "set_device_volume") (.obj []) =
        .ok (some (.obj [("success", .bool true), ("volume", .num 50)])) ∧
      handleLocalFunction (.str "adjust_device_volume") (.obj []) =
        .ok (some (.obj [("success", .bool true), ("action", .str "increase")])) ∧
      handleLocalFunction (.str "quiet_device") (.obj []) =
        .ok (some (.obj [("success", .bool true), ("volume", .num 0)])) ∧
      handleLocalFunction (.str "stop_audio") (.num 3) =
        .ok (some (.obj [("success", .bool true), ("message", .str "Audio stopped")])) :=
  ⟨c10_local_function_defaults.1 [] rfl, c10_local_function_defaults.2.1 [] rfl,
    c10_local_function_defaults.2.2.1 (.obj []), c10_local_function_defaults.2.2.2 (.num 3)⟩

/-- C5: for every function-call event whose name is none of the four
local functions, when the external callback is set, `_handle_message`
invokes it exactly once with the parsed name, argument value (the parsed
mapping, or the empty mapping when the argument string does not parse)
and call id — and writes nothing on the data channel, whatever its
state. -/
theorem c5_external_function_call (cbs : Callbacks) (channel : Option String)
    (name argsStr callId : String)
    (h1 : name ≠ "set_device_volume") (h2 : name ≠ "adjust_device_volume")
    (h3 : name ≠ "quiet_device") (h4 : name ≠ "stop_audio")
    (hcb : cbs.onFunctionCall = true) :
    handleMessage cbs channel (fcEvent name argsStr callId) =
      .ok [.callFunctionCall (.str name) ((loads argsStr).getD (.obj []))
        (.str callId)] := by
  have e1 : handleMessage cbs channel (fcEvent name argsStr callId) =
      (handleLocalFunction (.str name) ((loads argsStr).getD (.obj []))).bind
        (fun r => match r with
          | some result => Except.ok (sendFunctionResult channel (.str callId) result)
          | none => Except.ok (if cbs.onFunctionCall then
              [.callFunctionCall (.str name) ((loads argsStr).getD (.obj []))
                (.str callId)]
            else [])) := rfl
  have b1 : (name == "set_device_volume") = false := beq_eq_false_iff_ne.mpr h1
  have b2 : (name == "adjust_device_volume") = false := beq_eq_false_iff_ne.mpr h2
  have b3 : (name == "quiet_device") = false := beq_eq_false_iff_ne.mpr h3
  have b4 : (name == "stop_audio") = false := beq_eq_false_iff_ne.mpr h4
  have e2 : handleLocalFunction (.str name) ((loads argsStr).getD (.obj [])) =
      .ok none := by
    rw [handleLocalFunction]
    simp only [json_str_beq, b1, b2, b3, b4]
    rfl
  rw [e1, e2]
  show Except.ok (if cbs.onFunctionCall then _ else _) = _
  rw [hcb, if_pos rfl]

/-- Witness for C5 at a concrete unrecognized function name. -/
theorem c5_witness :
    handleMessage ⟨true, true, true⟩ (some "open") (fcEvent "lookup_weather" "[3]" "call-9") =
      .ok [.callFunctionCall (.str "lookup_weather")
        ((loads "[3]").getD (.obj [])) (.str "call-9")] :=
  c5_external_function_call ⟨true, true, true⟩ (some "open") "lookup_weather" "[3]" "call-9"
    (by decide) (by decide) (by decide) (by decide) rfl

/-- C1, evaluated at the divergence point: a function-call event for the
local function `set_device_volume` whose argument string `"42"` is valid
JSON but not an object makes `_handle_message` raise an `AttributeError`
(from `args.get` on an `int`) before any send — not the two writes the
claim states — while the same event with an object argument string does
produce exactly the two writes, function-output first, response-trigger
second. -/
theorem c1_local_function_crash :
    handleMessage ⟨true, true, true⟩ (some "open")
        (fcEvent "set_device_volume" "42" "call-1") = .error .attributeError ∧
      handleMessage ⟨true, true, true⟩ (some "open")
          (fcEvent "set_device_volume" "\x7b\x22volume_level\x22: 30\x7d" "call-1") =
        .ok [.sendData (Json.dumps (functionOutputMessage (.str "call-1")
              (.obj [("success", .bool true), ("volume", .num 30)]))),
            .sendData (Json.dumps responseCreateMessage)] :=
  ⟨rfl, rfl⟩

/-- C8: in the outbound function-output message the `output` field of the
`item` carries exactly the JSON-encoded result, and decoding that field
back yields the original result mapping, for every well-formed result
value of the fragment. -/
theorem c8_output_round_trip (callId result : Json) (h : result.wf = true) :
    ((functionOutputMessage callId result).getField "item").bind
        (fun item => item.getField "output") = some (.str (Json.dumps result)) ∧
      loads (Json.dumps result) = some result :=
  ⟨rfl, loads_dumps result h⟩

/-- Witness for C8 at a concrete function result. -/
theorem c8_witness :
    ((functionOutputMessage (.str "call-3")
          (.obj [("success", .bool true), ("volume", .num 50)])).getField "item").bind
        (fun item => item.getField "output") =
      some (.str (Json.dumps (.obj [("success", .bool true), ("volume", .num 50)]))) ∧
      loads (Json.dumps (Json.obj [("success", .bool true), ("volume", .num 50)])) =
        some (.obj [("success", .bool true), ("volume", .num 50)]) :=
  c8_output_round_trip (.str "call-3") (.obj [("success", .bool true), ("volume", .num 50)]) rfl

end VoiceClient
